import Mathlib

/-!
Verification development for the property-discovery extraction engine in
app/core/web_search.py (class WebSearchClient).  Strings are modelled as
lists of characters; Python floats are modelled as rationals; network and
HTML-tree effects are modelled by an environment value that supplies the
upstream responses.  Each definition is a direct translation of the Python
function of the same (de-underscored) name.
-/

set_option maxRecDepth 4000
set_option linter.unusedVariables false
set_option linter.unreachableTactic false
set_option linter.unusedTactic false
set_option linter.unnecessarySeqFocus false

deriving instance DecidableEq for Except

namespace WebSearch

/-- Strings are lists of characters. -/
abbrev Str := List Char

/-- Convert a Lean string literal to the model type. -/
def toL (s : String) : Str := s.toList

/-- Python whitespace class for the regex token matching blanks. -/
def pyWs (c : Char) : Bool :=
  c = ' ' || c = '\t' || c = '\n' || c = '\r' || c = '\x0b' || c = '\x0c'

/-- ASCII lowering, modelling str.lower on the inputs in play. -/
def lowerChar (c : Char) : Char :=
  if 'A' ≤ c ∧ c ≤ 'Z' then Char.ofNat (c.toNat + 32) else c

/-- Lower a whole string. -/
def lowerStr (s : Str) : Str := s.map lowerChar

/-- Python str.strip: drop leading and trailing whitespace. -/
def stripStr (s : Str) : Str :=
  ((s.dropWhile pyWs).reverse.dropWhile pyWs).reverse

/-- Boolean test that the first list starts the second one. -/
def isPre : Str → Str → Bool
  | [], _ => true
  | _ :: _, [] => false
  | a :: t, b :: u => a == b && isPre t u

/-- Substring containment, modelling the Python `in` operator on strings. -/
def containsSub (needle : Str) : Str → Bool
  | [] => isPre needle []
  | c :: t => isPre needle (c :: t) || containsSub needle t

/-- Leftmost-position regex search: try a matcher at every suffix, left to
right, and return the first hit.  This models re.search position scanning. -/
def scanFirst {α : Type} (f : Str → Option α) : Str → Option α
  | [] => f []
  | c :: t =>
    match f (c :: t) with
    | some r => some r
    | none => scanFirst f t

/-- Numeric value of a digit string. -/
def natOfDigits (s : Str) : Nat :=
  s.foldl (fun a c => 10 * a + (c.toNat - 48)) 0

/-- One decimal digit as a character, used when printing numbers. -/
def digitCharOf (d : Nat) : Char :=
  match d with
  | 0 => '0' | 1 => '1' | 2 => '2' | 3 => '3' | 4 => '4'
  | 5 => '5' | 6 => '6' | 7 => '7' | 8 => '8' | 9 => '9' | _ => '*'

/-- Fuel-bounded worker of the decimal rendering; the fuel always exceeds
the digit count at the call sites. -/
def natStrAux : Nat → Nat → Str
  | 0, _ => []
  | fuel + 1, n =>
    if n < 10 then [digitCharOf n]
    else natStrAux fuel (n / 10) ++ [digitCharOf (n % 10)]

/-- Decimal rendering of a natural number, modelling Python str(n). -/
def natStr (n : Nat) : Str := natStrAux (n + 1) n

/-- Greedy run of groups of a comma followed by exactly three digits, for the
tail of the first price pattern. -/
def commaGroups : Str → Str
  | ',' :: a :: b :: c :: t =>
    if a.isDigit && b.isDigit && c.isDigit then
      ',' :: a :: b :: c :: commaGroups t
    else []
  | _ => []

/-- Matcher for one position of the first price regex, a dollar sign then
optional blanks then one to three digits then comma groups; returns the
captured group.  Greedy backtracking collapses to requiring the maximal
digit run to have length at most three. -/
def priceMatch1At (s : Str) : Option Str :=
  match s with
  | '$' :: t =>
    let t1 := t.dropWhile pyWs
    let run := t1.takeWhile Char.isDigit
    let rest := t1.dropWhile Char.isDigit
    if 1 ≤ run.length ∧ run.length ≤ 3 then
      let g := commaGroups rest
      if g = [] then none else some (run ++ g)
    else none
  | _ => none

/-- Matcher for one position of the second price regex, a dollar sign then
optional blanks then at least four digits. -/
def priceMatch2At (s : Str) : Option Str :=
  match s with
  | '$' :: t =>
    let t1 := t.dropWhile pyWs
    let run := t1.takeWhile Char.isDigit
    if 4 ≤ run.length then some run else none
  | _ => none

/-- Second phase of extract_price, trying the plain-digit pattern. -/
def extract_price_p2 (text : Str) : Nat :=
  match scanFirst priceMatch2At text with
  | some g =>
    if 1000 ≤ natOfDigits (g.filter (· ≠ ',')) ∧
        natOfDigits (g.filter (· ≠ ',')) ≤ 50000000 then
      natOfDigits (g.filter (· ≠ ','))
    else 0
  | none => 0

/-- Model of _extract_price: first match of each pattern in order, with the
plausibility range check; 0 is the unknown sentinel.  The int conversion of
a captured group never fails since groups are digits and commas. -/
def extract_price (text : Str) : Nat :=
  match scanFirst priceMatch1At text with
  | some g =>
    if 1000 ≤ natOfDigits (g.filter (· ≠ ',')) ∧
        natOfDigits (g.filter (· ≠ ',')) ≤ 50000000 then
      natOfDigits (g.filter (· ≠ ','))
    else extract_price_p2 text
  | none => extract_price_p2 text

/-- Character class of the acreage group: digits and dots. -/
def isDigitDot (c : Char) : Bool := c.isDigit || c = '.'

/-- Python float parsing of a digits-and-dots group: at most one dot and at
least one digit, otherwise a ValueError, modelled as none.  The value is
intPart.fracPart as a rational. -/
def parseFloatQ (g : Str) : Option ℚ :=
  let ip := g.takeWhile Char.isDigit
  let rest := g.dropWhile Char.isDigit
  match rest with
  | [] => if ip = [] then none else some (mkRat (natOfDigits ip) 1)
  | '.' :: fp =>
    if fp.all Char.isDigit ∧ (ip ≠ [] ∨ fp ≠ []) then
      let den := fp.foldl (fun a _ => a * 10) (1 : Nat)
      some (mkRat (natOfDigits ip * den + natOfDigits fp) den)
    else none
  | _ => none

/-- Matcher for one position of the first acreage regex: a digits-and-dots
run, blanks, then the literal acre word. -/
def acresMatch1At (s : Str) : Option Str :=
  let run := s.takeWhile isDigitDot
  let rest := (s.dropWhile isDigitDot).dropWhile pyWs
  if run ≠ [] ∧ isPre (toL "acre") rest then some run else none

/-- True when a character counts as a regex word character (ASCII model). -/
def isWordChar (c : Char) : Bool :=
  c.isAlpha || c.isDigit || c = '_'

/-- Matcher for one position of the second acreage regex: a digits-and-dots
run, blanks, the literal ac, then a word boundary. -/
def acresMatch2At (s : Str) : Option Str :=
  let run := s.takeWhile isDigitDot
  let rest := (s.dropWhile isDigitDot).dropWhile pyWs
  match rest with
  | 'a' :: 'c' :: r =>
    if run = [] then none
    else
      match r with
      | [] => some run
      | c :: _ => if isWordChar c then none else some run
  | _ => none

/-- Second phase of extract_acres, trying the ac-with-boundary pattern. -/
def extract_acres_p2 (low : Str) : Option ℚ :=
  match scanFirst acresMatch2At low with
  | some g =>
    match parseFloatQ g with
    | some a => if mkRat 1 10 ≤ a ∧ a ≤ mkRat 10000 1 then some a else none
    | none => none
  | none => none

/-- Model of _extract_acres: patterns tried in order on the lowered text,
a parse failure or an out-of-range value falls through to the next pattern,
and the final fallback is none. -/
def extract_acres (text : Str) : Option ℚ :=
  if text = [] then none
  else
    match scanFirst acresMatch1At (lowerStr text) with
    | some g =>
      match parseFloatQ g with
      | some a =>
        if mkRat 1 10 ≤ a ∧ a ≤ mkRat 10000 1 then some a
        else extract_acres_p2 (lowerStr text)
      | none => extract_acres_p2 (lowerStr text)
    | none => extract_acres_p2 (lowerStr text)

/-- Capitalized word token of the street regexes: one uppercase letter then
at least one lowercase letter, greedily; returns the word and the rest. -/
def wordAt (s : Str) : Option (Str × Str) :=
  match s with
  | [] => none
  | c :: t =>
    if c.isUpper then
      let low := t.takeWhile Char.isLower
      if low = [] then none else some (c :: low, t.dropWhile Char.isLower)
    else none

/-- First street-suffix alternative that matches at this position, in the
order the source regex lists them. -/
def sufMatchFirst (alts : List Str) (s : Str) : Option Str :=
  alts.find? (fun a => isPre a s)

/-- Continuation of the multi-word street regex after a word: the starred
blank-plus-word repetitions, greedy with backtracking, then blanks and a
street suffix; returns the consumed text.  Fuel bounds the recursion and is
always ample since each repetition consumes characters. -/
def spTail (alts : List Str) : Nat → Str → Option Str
  | 0, _ => none
  | fuel + 1, s =>
    let ws := s.takeWhile pyWs
    let rest := s.dropWhile pyWs
    if ws = [] then none
    else
      match wordAt rest with
      | some (w, r2) =>
        (match spTail alts fuel r2 with
         | some cont => some (ws ++ w ++ cont)
         | none => (sufMatchFirst alts rest).map (fun a => ws ++ a))
      | none => (sufMatchFirst alts rest).map (fun a => ws ++ a)

/-- Anchored matcher for the multi-word street regex, digits then blanks
then a word then starred words then a suffix; returns the whole match. -/
def spMatchAt (alts : List Str) (s : Str) : Option Str :=
  let ds := s.takeWhile Char.isDigit
  let r1 := s.dropWhile Char.isDigit
  if ds = [] then none
  else
    let ws1 := r1.takeWhile pyWs
    let r2 := r1.dropWhile pyWs
    if ws1 = [] then none
    else
      match wordAt r2 with
      | none => none
      | some (w1, r3) =>
        (spTail alts (r3.length + 1) r3).map (fun cont => ds ++ ws1 ++ w1 ++ cont)

/-- Anchored matcher for the single-word street regex of the address gate:
digits, blanks, one word, blanks, a suffix. -/
def spbMatchAt (alts : List Str) (s : Str) : Option Str :=
  let ds := s.takeWhile Char.isDigit
  let r1 := s.dropWhile Char.isDigit
  if ds = [] then none
  else
    let ws1 := r1.takeWhile pyWs
    let r2 := r1.dropWhile pyWs
    if ws1 = [] then none
    else
      match wordAt r2 with
      | none => none
      | some (w1, r3) =>
        let ws2 := r3.takeWhile pyWs
        let r4 := r3.dropWhile pyWs
        if ws2 = [] then none
        else (sufMatchFirst alts r4).map (fun a => ds ++ ws1 ++ w1 ++ ws2 ++ a)

/-- Suffix alternatives of the regex in _extract_address. -/
def sufA : List Str :=
  [toL "St", toL "Ave", toL "Rd", toL "Dr", toL "Ln", toL "Ct", toL "Blvd",
   toL "Way", toL "Pkwy", toL "Pl", toL "Loop", toL "Cir"]

/-- Suffix alternatives of the regex in _contains_address_pattern. -/
def sufB : List Str :=
  [toL "Rd", toL "Road", toL "St", toL "Street", toL "Ave", toL "Avenue",
   toL "Dr", toL "Drive", toL "Ln", toL "Lane", toL "Ct", toL "Court",
   toL "Blvd", toL "Boulevard", toL "Way", toL "Pkwy", toL "Parkway",
   toL "Pl", toL "Place", toL "Loop", toL "Cir", toL "Circle"]

/-- Suffix alternatives of the regex in _parse_generic_html. -/
def sufC : List Str :=
  [toL "Rd", toL "Road", toL "St", toL "Street", toL "Ave", toL "Avenue",
   toL "Dr", toL "Drive", toL "Ln", toL "Lane", toL "Ct", toL "Court",
   toL "Blvd", toL "Way"]

/-- Anchored matcher for the case-insensitive LOT pattern: the letters of
lot, then at least one blank, then at least one digit. -/
def lotMatchAt (s : Str) : Option Unit :=
  match s with
  | a :: b :: c :: t =>
    if lowerChar a = 'l' ∧ lowerChar b = 'o' ∧ lowerChar c = 't' then
      let ws := t.takeWhile pyWs
      let rest := t.dropWhile pyWs
      if ws ≠ [] ∧ (rest.headD ' ').isDigit then some () else none
    else none
  | _ => none

/-- Anchored matcher for the unit-number pattern, a hash then a digit. -/
def hashMatchAt (s : Str) : Option Unit :=
  match s with
  | '#' :: c :: _ => if c.isDigit then some () else none
  | _ => none

/-- Model of _contains_address_pattern: a single-word street pattern, a LOT
number, or a unit number anywhere in the text. -/
def contains_address_pattern (text : Str) : Bool :=
  (scanFirst (spbMatchAt sufB) text).isSome
  || (scanFirst lotMatchAt text).isSome
  || (scanFirst hashMatchAt text).isSome

/-- Model of _is_valid_address: no category-page prefix on the lowered text,
at least one digit, and at least ten characters. -/
def is_valid_address (address : Str) : Bool :=
  let low := lowerStr address
  let listingPre :=
    let ds := low.takeWhile Char.isDigit
    let r := (low.dropWhile Char.isDigit).dropWhile pyWs
    ds ≠ [] && isPre (toL "listing") r
  let invalid :=
    isPre (toL "property in") low || isPre (toL "land in") low
    || isPre (toL "home in") low || isPre (toL "homes in") low
    || listingPre || isPre (toL "search") low || isPre (toL "under $") low
  !invalid && low.any Char.isDigit && decide (10 ≤ address.length)

/-- Model of _extract_address: the street regex on the title, then on the
snippet, then the title itself when it has a digit and plausible length,
split at the first bar and stripped. -/
def extract_address (title snippet location : Str) : Option Str :=
  match scanFirst (spMatchAt sufA) title with
  | some m => some m
  | none =>
    match scanFirst (spMatchAt sufA) snippet with
    | some m => some m
    | none =>
      if title.any Char.isDigit ∧ 10 < title.length ∧ title.length < 100 then
        some (stripStr (title.takeWhile (· ≠ '|')))
      else none

/-- All matches of the generic street regex, modelling re.findall: scan left
to right and continue after each match.  Fuel is the text length. -/
def findAllSP (alts : List Str) : Nat → Str → List Str
  | 0, _ => []
  | _, [] => []
  | fuel + 1, c :: t =>
    match spMatchAt alts (c :: t) with
    | some m => m :: findAllSP alts fuel ((c :: t).drop m.length)
    | none => findAllSP alts fuel t

/-- Anchored matcher for the bedroom regex, digits then blanks then one of
the bed alternatives. -/
def bedsMatchAt (s : Str) : Option Str :=
  let run := s.takeWhile Char.isDigit
  let rest := (s.dropWhile Char.isDigit).dropWhile pyWs
  if run = [] then none
  else if isPre (toL "bed") rest || isPre (toL "bd") rest
      || isPre (toL "bedroom") rest then some run
  else none

/-- Anchored matcher for the bathroom regex, a digits-and-dots run then
blanks then one of the bath alternatives. -/
def bathMatchAt (s : Str) : Option Str :=
  let run := s.takeWhile isDigitDot
  let rest := (s.dropWhile isDigitDot).dropWhile pyWs
  if run = [] then none
  else if isPre (toL "bath") rest || isPre (toL "ba") rest then some run
  else none

/-- Model of _extract_beds_baths.  The bath group is fed to float with no
try block in the source, so an unparsable group raises; that raise is the
error case here. -/
def extract_beds_baths (text : Str) : Except Unit (Option Nat × Option ℚ) :=
  let low := lowerStr text
  let beds := (scanFirst bedsMatchAt low).map natOfDigits
  match scanFirst bathMatchAt low with
  | none => .ok (beds, none)
  | some g =>
    match parseFloatQ g with
    | some b => .ok (beds, some b)
    | none => .error ()

/-- Alternatives of the square-footage unit part of the regex, in order. -/
def sqftSuf (s : Str) : Bool :=
  (match s with
   | 's' :: 'q' :: '.' :: r2 => isPre (toL "ft") (r2.dropWhile pyWs)
   | 's' :: 'q' :: r => isPre (toL "ft") (r.dropWhile pyWs)
   | _ => false)
  || isPre (toL "sqft") s || isPre (toL "square feet") s

/-- Anchored matcher for the square-footage regex, a digits-and-commas run
then blanks then a unit alternative. -/
def sqftMatchAt (s : Str) : Option Str :=
  let run := s.takeWhile (fun c => c.isDigit || c = ',')
  let rest := (s.dropWhile (fun c => c.isDigit || c = ',')).dropWhile pyWs
  if run = [] then none
  else if sqftSuf rest then some run else none

/-- Model of _extract_sqft with the plausibility range check; an all-comma
group is the caught int ValueError. -/
def extract_sqft (text : Str) : Option Nat :=
  let low := lowerStr text
  match scanFirst sqftMatchAt low with
  | some g =>
    let ds := g.filter (· ≠ ',')
    if ds = [] then none
    else
      let n := natOfDigits ds
      if 100 ≤ n ∧ n ≤ 50000 then some n else none
  | none => none

/-- Model of _guess_property_type, keyword containment on the lowered text. -/
def guess_property_type (text : Str) : Str :=
  let low := lowerStr text
  if containsSub (toL "land") low || containsSub (toL "lot") low
      || containsSub (toL "acre") low || containsSub (toL "vacant") low then
    toL "Land"
  else if containsSub (toL "commercial") low
      || containsSub (toL "office") low then
    toL "Commercial"
  else if containsSub (toL "house") low || containsSub (toL "home") low
      || containsSub (toL "bed") low then
    toL "Residential"
  else toL "Real Estate"

/-- Model of _identify_source, brand lookup on the lowered display link. -/
def identify_source (display_link link : Str) : Str :=
  let domain := lowerStr display_link
  if containsSub (toL "zillow") domain then toL "Zillow"
  else if containsSub (toL "realtor.com") domain then toL "Realtor.com"
  else if containsSub (toL "landwatch") domain then toL "LandWatch"
  else if containsSub (toL "redfin") domain then toL "Redfin"
  else toL "Real Estate Listing"

/-- Output record of the engine, the dict built by the extraction paths.
Optional fields model keys that some paths leave unset; lot_size models the
formatted acre label by its numeric value. -/
structure PropertyRecord where
  address : Str := []
  price : Nat := 0
  acres : Option ℚ := none
  lot_size : Option ℚ := none
  bedrooms : Option Nat := none
  bathrooms : Option ℚ := none
  sqft : Option Nat := none
  property_type : Str := []
  description : Option Str := none
  source : Str := []
  source_url : Str := []
  search_date : Option Str := none
deriving DecidableEq

/-- One structured search result item; absent keys default to empty. -/
structure Item where
  title : Str := []
  snippet : Str := []
  link : Str := []
  display_link : Str := []
deriving DecidableEq

/-- Outcome of one structured search call: a network or status failure, a
payload with an error field, or a payload with its items. -/
inductive QueryOutcome where
  | fail : QueryOutcome
  | errorField : QueryOutcome
  | ok200 : List Item → QueryOutcome
deriving DecidableEq

/-- One listing block of a scraped Zillow page, abstracting the elements
the soup selectors deliver. -/
structure ZBlock where
  addrText : Option Str := none
  priceText : Option Str := none
  details : Str := []
  href : Option Str := none
deriving DecidableEq

/-- One listing block of a scraped Realtor page. -/
structure RBlock where
  addrText : Option Str := none
  priceText : Option Str := none
deriving DecidableEq

/-- One listing block of a scraped LandWatch page. -/
structure LBlock where
  addrText : Option Str := none
  priceText : Option Str := none
  acresText : Option Str := none
deriving DecidableEq

/-- Content of a fetched aggregate page, tagged by the site parser the URL
dispatch selects. -/
inductive PageData where
  | zillowPage : List ZBlock → PageData
  | realtorPage : List RBlock → PageData
  | landwatchPage : List LBlock → PageData
  | genericPage : Str → PageData
deriving DecidableEq

/-- Upstream world of one search_properties call: credential presence, the
timestamp, the outcome of each structured query in order, and the outcome of
each aggregate page fetch in order (none is any swallowed fetch failure). -/
structure Env where
  hasKeys : Bool
  now : Str
  queryOutcomes : List QueryOutcome
  scrapes : List (Option PageData)

/-- Python truthiness of the optional max price, where 0 is falsy. -/
def truthyNat : Option Nat → Option Nat
  | some m => if m = 0 then none else some m
  | none => none

/-- Model of _build_individual_listing_queries. -/
def build_individual_listing_queries
    (location property_type : Str) (max_price : Option Nat) : List Str :=
  let parts := location.splitOn ','
  let city_county :=
    match parts with
    | [] => location
    | p :: _ => stripStr p
  let q1 :=
    match truthyNat max_price with
    | some m =>
      toL "\"" ++ city_county ++ toL "\" address " ++ property_type
        ++ toL " for sale $" ++ natStr (m / 1000) ++ toL "k"
    | none =>
      toL "\"" ++ city_county ++ toL "\" address " ++ property_type
        ++ toL " for sale"
  let q2 := toL "\"" ++ city_county ++ toL "\" \"Rd\" OR \"St\" OR \"Ave\" "
    ++ property_type ++ toL " for sale"
  let q3 := toL "\"" ++ city_county ++ toL "\" lot OR parcel address "
    ++ property_type ++ toL " zillow realtor"
  let q4 := city_county ++ ' ' :: property_type ++ toL " listing address price"
  let state :=
    match parts with
    | _ :: s :: _ => stripStr s
    | _ => []
  let base := [q1, q2, q3, q4]
  if state ≠ [] then
    base ++ [toL "\"" ++ city_county ++ toL "\" " ++ state ++ ' ' :: property_type
      ++ toL " for sale site:zillow.com OR site:realtor.com"]
  else base

/-- Python truthiness of an optional string: an absent value and the empty
string are both falsy. -/
def truthyStr : Option Str → Option Str
  | some s => if s = [] then none else some s
  | none => none

/-- Model of _extract_property_details.  The record is built whenever a
truthy (present and nonempty) address was recovered or the price is
positive; otherwise the candidate is dropped.  The fallback address is the
truncated title, per the Python expression address or title[:100].  The
error case is the uncaught float raise of the bath field. -/
def extract_property_details
    (title snippet url location : Str) : Except Unit (Option PropertyRecord) :=
  match extract_beds_baths (title ++ ' ' :: snippet) with
  | .error e => .error e
  | .ok (beds, baths) =>
    if (truthyStr (extract_address title snippet location)).isSome ∨
        0 < extract_price (title ++ ' ' :: snippet) then
      .ok (some {
        address := (truthyStr (extract_address title snippet location)).getD
          (title.take 100)
        price := extract_price (title ++ ' ' :: snippet)
        acres := extract_acres (title ++ ' ' :: snippet)
        lot_size := extract_acres (title ++ ' ' :: snippet)
        bedrooms := beds
        bathrooms := baths
        sqft := extract_sqft (title ++ ' ' :: snippet)
        property_type := guess_property_type (title ++ ' ' :: snippet)
        description := some (snippet.take 200) })
    else .ok none

/-- Contribution of a single search item inside _parse_individual_listings:
the address-pattern gate, the detail extraction, the address truthiness and
validity checks, then the source attribution update. -/
def itemRecords (now location : Str) (it : Item) : Except Unit (List PropertyRecord) :=
  if contains_address_pattern (it.title ++ ' ' :: it.snippet) then
    match extract_property_details it.title it.snippet it.link location with
    | .error e => .error e
    | .ok none => .ok []
    | .ok (some pd) =>
      if pd.address ≠ [] ∧ is_valid_address pd.address then
        .ok [{ pd with
          source := identify_source it.display_link it.link
          source_url := it.link
          search_date := some now }]
      else .ok []
  else .ok []

/-- Model of _parse_individual_listings over the items of a payload; a raise
at any item loses the whole contribution of the payload. -/
def parse_individual_listings (now location : Str) :
    List Item → Except Unit (List PropertyRecord)
  | [] => .ok []
  | it :: t =>
    match itemRecords now location it with
    | .error e => .error e
    | .ok l =>
      match parse_individual_listings now location t with
      | .error e => .error e
      | .ok l2 => .ok (l ++ l2)

/-- Records one query contributes in _search_individual_listings: failures,
error payloads and raises during parsing all contribute nothing. -/
def queryContribution (now location : Str) : QueryOutcome → List PropertyRecord
  | .fail => []
  | .errorField => []
  | .ok200 items =>
    match parse_individual_listings now location items with
    | .ok l => l
    | .error _ => []

/-- Model of _search_individual_listings: the first three built queries,
each paired with its upstream outcome. -/
def search_individual_listings
    (env : Env) (location property_type : Str) (max_price : Option Nat) :
    List PropertyRecord :=
  let queries := build_individual_listing_queries location property_type max_price
  (((queries.take 3).zip env.queryOutcomes).map
    (fun qo => queryContribution env.now location qo.2)).flatten

/-- Model of one Zillow listing extraction; the error case is the bath
float raise, caught per listing by the caller. -/
def zillowRecord (url : Str) (b : ZBlock) : Except Unit (Option PropertyRecord) :=
  match extract_beds_baths b.details with
  | .error e => .error e
  | .ok (beds, baths) =>
    match b.addrText.map stripStr with
    | some a =>
      if a ≠ [] ∧ is_valid_address a then
        .ok (some {
          address := a
          price := match b.priceText with | some t => extract_price t | none => 0
          acres := extract_acres b.details
          lot_size := extract_acres b.details
          bedrooms := beds
          bathrooms := baths
          sqft := extract_sqft b.details
          property_type := guess_property_type b.details
          source := toL "Zillow"
          source_url :=
            match b.href with
            | some h =>
              if h ≠ [] then
                (if isPre (toL "http") h = false then
                  toL "https://www.zillow.com" ++ h
                else h)
              else url
            | none => url })
      else .ok none
    | none => .ok none

/-- Model of _parse_zillow_html over the first ten listing blocks; a raise
skips its listing only. -/
def zillowParse (url : Str) (bs : List ZBlock) : List PropertyRecord :=
  ((bs.take 10).map (fun b =>
    match zillowRecord url b with
    | .ok (some r) => [r]
    | _ => [])).flatten

/-- Model of one Realtor listing extraction. -/
def realtorRecord (url : Str) (b : RBlock) : Option PropertyRecord :=
  match b.addrText.map stripStr with
  | some a =>
    if a ≠ [] ∧ is_valid_address a then
      some { address := a,
             price := match b.priceText with | some t => extract_price t | none => 0,
             property_type := toL "Land",
             source := toL "Realtor.com", source_url := url }
    else none
  | none => none

/-- Model of _parse_realtor_html over the first ten listing blocks. -/
def realtorParse (url : Str) (bs : List RBlock) : List PropertyRecord :=
  (bs.take 10).filterMap (realtorRecord url)

/-- Model of one LandWatch listing extraction. -/
def landwatchRecord (url : Str) (b : LBlock) : Option PropertyRecord :=
  match b.addrText.map stripStr with
  | some a =>
    if a ≠ [] ∧ is_valid_address a then
      some { address := a,
             price := match b.priceText with | some t => extract_price t | none => 0,
             acres := match b.acresText with | some t => extract_acres t | none => none,
             lot_size := match b.acresText with | some t => extract_acres t | none => none,
             property_type := toL "Land", source := toL "LandWatch",
             source_url := url }
    else none
  | none => none

/-- Model of _parse_landwatch_html over the first ten listing blocks. -/
def landwatchParse (url : Str) (bs : List LBlock) : List PropertyRecord :=
  (bs.take 10).filterMap (landwatchRecord url)

/-- Model of _parse_generic_html: every generic street match in the page
text, first ten, kept when the address validates. -/
def genericParse (url : Str) (text : Str) : List PropertyRecord :=
  (((findAllSP sufC (text.length + 1) text).take 10).filter is_valid_address).map
    (fun a => { address := a, price := 0, property_type := toL "Land",
                source := toL "Real Estate Listing", source_url := url })

/-- Model of _scrape_listing_page: a failed fetch yields nothing, an
obtained page goes to the parser the URL dispatch selected. -/
def scrapeResult (url : Str) : Option PageData → List PropertyRecord
  | none => []
  | some (.zillowPage bs) => zillowParse url bs
  | some (.realtorPage bs) => realtorParse url bs
  | some (.landwatchPage bs) => landwatchParse url bs
  | some (.genericPage t) => genericParse url t

/-- Model of _build_aggregate_urls. -/
def build_aggregate_urls
    (location property_type : Str) (max_price : Option Nat) : List Str :=
  let slug := ((lowerStr location).map
    (fun c => if c = ' ' then '-' else c)).filter (· ≠ ',')
  let zUrl := toL "https://www.zillow.com/" ++ slug ++ toL "/land_type/"
    ++ (match truthyNat max_price with
        | some m => toL "0-" ++ natStr m ++ toL "_price/"
        | none => [])
  let rUrl := toL "https://www.realtor.com/realestateandhomes-search/"
    ++ slug ++ toL "/type-land"
  let lUrl := toL "https://www.landwatch.com/" ++ slug ++ toL "/land-for-sale"
    ++ (match truthyNat max_price with
        | some m => toL "?price_max=" ++ natStr m
        | none => [])
  [zUrl, rUrl, lUrl]

/-- Model of _fetch_from_aggregate_pages: the first three built URLs, each
paired with its fetch outcome; per-URL failures are swallowed. -/
def fetch_from_aggregate_pages
    (env : Env) (location property_type : Str) (max_price : Option Nat) :
    List PropertyRecord :=
  ((((build_aggregate_urls location property_type max_price).take 3).zip
    env.scrapes).map (fun uo => scrapeResult uo.1 uo.2)).flatten

/-- Normalized address of the deduplication key, lowered and stripped. -/
def normAddr (r : PropertyRecord) : Str := stripStr (lowerStr r.address)

/-- Deduplication key string of a record, address then underscore then the
decimal price. -/
def identOf (r : PropertyRecord) : Str := normAddr r ++ '_' :: natStr r.price

/-- Worker of _deduplicate_results with the seen set accumulated; the key is
the lowered stripped address, an underscore, and the decimal price, and a
record with an empty normalized address gets no key and is dropped. -/
def dedupGo (seen : List Str) : List PropertyRecord → List PropertyRecord
  | [] => []
  | r :: t =>
    if normAddr r ≠ [] then
      if identOf r ∈ seen then dedupGo seen t
      else r :: dedupGo (identOf r :: seen) t
    else dedupGo seen t

/-- Model of _deduplicate_results. -/
def deduplicate_results (results : List PropertyRecord) : List PropertyRecord :=
  dedupGo [] results

/-- Raw accumulated candidate list of search_properties before dedup: the
search tier when credentials exist, then the scrape tier when the search
tier found fewer than five records. -/
def aggregated_results (env : Env) (location property_type : Str)
    (max_price : Option Nat) : List PropertyRecord :=
  if env.hasKeys then
    let t1 := search_individual_listings env location property_type max_price
    t1 ++ (if t1.length < 5 then
      fetch_from_aggregate_pages env location property_type max_price
    else [])
  else []

/-- Model of search_properties: accumulate both tiers, deduplicate, cap at
twenty. -/
def search_properties (env : Env) (location property_type : Str)
    (max_price : Option Nat) (min_acres : Option ℚ) : List PropertyRecord :=
  (deduplicate_results
    (aggregated_results env location property_type max_price)).take 20

/-- Confidence grades of the spec data model. -/
inductive Grade where
  | High : Grade
  | Medium : Grade
  | Low : Grade
deriving DecidableEq

/-- Modelled from the spec: the Confidence Scorer component is absent from
src (no code there computes a confidence grade); the additive scoring is
taken from the spec words: address present and longer than 15 characters
gives 40, address present but shorter gives 20, positive price gives 40,
acreage present gives 20. -/
def confidence_score (r : PropertyRecord) : Nat :=
  (if r.address ≠ [] then (if 15 < r.address.length then 40 else 20) else 0)
  + (if 0 < r.price then 40 else 0)
  + (if r.acres.isSome then 20 else 0)

/-- Modelled from the spec: grade thresholds, at least 80 High, at least 50
Medium, otherwise Low. -/
def confidence (r : PropertyRecord) : Grade :=
  if 80 ≤ confidence_score r then .High
  else if 50 ≤ confidence_score r then .Medium
  else .Low

/-- Rank of a grade, High above Medium above Low. -/
def gradeVal : Grade → Nat
  | .High => 2
  | .Medium => 1
  | .Low => 0

/-- A list is sorted by confidence when grades never increase along it. -/
def sortedByConfidence : List PropertyRecord → Bool
  | [] => true
  | [_] => true
  | a :: b :: t =>
    decide (gradeVal (confidence b) ≤ gradeVal (confidence a))
      && sortedByConfidence (b :: t)

/-- Modelled from the spec: the property-domain keywords of the keyword
gate the spec describes; no such gate exists in src. -/
def propertyKeywords : List Str :=
  [toL "property", toL "land", toL "home", toL "acre", toL "lot",
   toL "listing", toL "for sale", toL "real estate", toL "residential",
   toL "commercial", toL "address"]

/-- Modelled from the spec: whether a text contains any property-domain
keyword, case-insensitively. -/
def containsAnyKeyword (text : Str) : Bool :=
  propertyKeywords.any (fun k => containsSub k (lowerStr text))

/-- Concrete search item whose only recovered signal is a short address. -/
def itemLow : Item :=
  { title := toL "123 Maple Ln", snippet := [], link := toL "l1",
    display_link := toL "example.com" }

/-- Concrete search item with a long address, a price and an acreage. -/
def itemHigh : Item :=
  { title := toL "4567 Cherry Blvd", snippet := toL "$45,000 and 2.5 acres",
    link := toL "l2", display_link := toL "zillow.com" }

/-- Environment delivering the two concrete items on the first query and
failures everywhere else. -/
def envTwo : Env :=
  { hasKeys := true, now := toL "t0",
    queryOutcomes := [.ok200 [itemLow, itemHigh], .fail, .fail],
    scrapes := [none, none, none] }

/-- Environment delivering only the low-signal item with no scrape data. -/
def envOne : Env :=
  { hasKeys := true, now := toL "t0",
    queryOutcomes := [.ok200 [itemLow]],
    scrapes := [none, none, none] }

/-- Record that the pipeline produces from the low-signal item. -/
def recLow : PropertyRecord :=
  { address := toL "123 Maple Ln", price := 0,
    property_type := toL "Real Estate", description := some [],
    source := toL "Real Estate Listing", source_url := toL "l1",
    search_date := some (toL "t0") }

/-- Title of 101 characters whose digits sit before lowercase text, so the
street regex fails, the title fallback is too long, and yet the truncated
title survives the validity check. -/
def titleLong : Str := toL "1234 " ++ List.replicate 96 'x'

/-- Concrete item with a positive price, no recoverable address and no
acreage, passing the gate through its unit-number mark. -/
def itemPriceOnly : Item :=
  { title := titleLong, snippet := toL "#5 for $45,000", link := toL "u",
    display_link := toL "d" }

/-- Concrete item holding a street address but not one property keyword. -/
def itemNoKeyword : Item :=
  { title := toL "123 Main St — $45,000", snippet := [], link := toL "u8",
    display_link := toL "d8" }

/-- Record with an entirely absent address. -/
def recNoAddr1 : PropertyRecord := { address := [], price := 5000 }

/-- Second record with an absent address, same price, other source. -/
def recNoAddr2 : PropertyRecord :=
  { address := [], price := 5000, source := toL "other" }

/-- First duplicate candidate of the Oak Street scenario. -/
def recOak1 : PropertyRecord :=
  { address := toL "500 Oak St", price := 120000, source := toL "q1" }

/-- Second duplicate candidate of the Oak Street scenario. -/
def recOak2 : PropertyRecord :=
  { address := toL "500 Oak St", price := 120000, source := toL "q2" }

/-- The Scenario A snippet of the spec. -/
def scenA : Str := toL "1234 County Road 345, Bastrop, TX — $45,000, 2.5 acres"

/-- Key predicate of the deduplication claims: the record has the given
normalized address and price. -/
def keyMatch (a : Str) (p : Nat) (r : PropertyRecord) : Bool :=
  normAddr r == a && r.price == p

/-- Record the detail extractor builds when the Scenario A text arrives as
the title. -/
def recScenA : PropertyRecord :=
  { address := scenA, price := 45000, acres := some (mkRat 5 2),
    lot_size := some (mkRat 5 2), property_type := toL "Land",
    description := some scenA }

end WebSearch

namespace WebSearch

lemma extract_price_p2_range (t : Str) :
    extract_price_p2 t = 0 ∨
      (1000 ≤ extract_price_p2 t ∧ extract_price_p2 t ≤ 50000000) := by
  unfold extract_price_p2
  split
  · split_ifs with h
    · right; exact h
    · left; rfl
  · left; rfl

lemma extract_price_range (t : Str) :
    extract_price t = 0 ∨ (1000 ≤ extract_price t ∧ extract_price t ≤ 50000000) := by
  unfold extract_price
  split
  · split_ifs with h
    · right; exact h
    · exact extract_price_p2_range t
  · exact extract_price_p2_range t

lemma extract_acres_p2_range {low : Str} {a : ℚ} (h : extract_acres_p2 low = some a) :
    mkRat 1 10 ≤ a ∧ a ≤ mkRat 10000 1 := by
  unfold extract_acres_p2 at h
  split at h
  · split at h
    · split_ifs at h with hr
      · cases h; exact hr
    · exact Option.noConfusion h
  · exact Option.noConfusion h

lemma extract_acres_range {t : Str} {a : ℚ} (h : extract_acres t = some a) :
    mkRat 1 10 ≤ a ∧ a ≤ mkRat 10000 1 := by
  unfold extract_acres at h
  by_cases ht : t = []
  · rw [if_pos ht] at h
    exact Option.noConfusion h
  · rw [if_neg ht] at h
    split at h
    · split at h
      · split_ifs at h with hr
        · cases h; exact hr
        · exact extract_acres_p2_range h
      · exact extract_acres_p2_range h
    · exact extract_acres_p2_range h

/-- C7: the price extractor only ever returns 0 or a value inside the
plausibility range 1000 to 50000000, the acreage extractor only ever
returns an acreage inside one tenth to ten thousand or nothing, a
pattern-matched price of 500 yields the sentinel 0, and a pattern-matched
acreage of 15000 yields nothing. -/
theorem extraction_range_policy (text : Str) :
    (extract_price text = 0 ∨
      (1000 ≤ extract_price text ∧ extract_price text ≤ 50000000)) ∧
    (∀ a : ℚ, extract_acres text = some a →
      mkRat 1 10 ≤ a ∧ a ≤ mkRat 10000 1) ∧
    extract_price (toL "$0,500") = 0 ∧
    extract_acres (toL "15000 acres") = none :=
  ⟨extract_price_range text, fun _ h => extract_acres_range h,
    by decide, by decide⟩

/-- C7 witness: the range conclusion instantiated on a concrete acreage. -/
theorem extraction_range_policy_witness :
    mkRat 1 10 ≤ mkRat 5 2 ∧ mkRat 5 2 ≤ mkRat 10000 1 :=
  (extraction_range_policy (toL "2.5 acres")).2.1 (mkRat 5 2) (by decide)

/-- C3: the confidence grade is one of High, Medium and Low, is the
threshold classification of the additive score of the recovered fields,
and High holds exactly when the price is positive together with a long
address or an address plus an acreage. -/
theorem confidence_grading (r : PropertyRecord) :
    (confidence r = .High ∨ confidence r = .Medium ∨ confidence r = .Low) ∧
    confidence_score r =
      (if r.address ≠ [] then (if 15 < r.address.length then 40 else 20) else 0)
      + (if 0 < r.price then 40 else 0) + (if r.acres.isSome then 20 else 0) ∧
    (confidence r = .High ↔ 80 ≤ confidence_score r) ∧
    (confidence r = .Medium ↔
      50 ≤ confidence_score r ∧ confidence_score r < 80) ∧
    (confidence r = .Low ↔ confidence_score r < 50) ∧
    (confidence r = .High ↔
      0 < r.price ∧ (15 < r.address.length ∨ (r.address ≠ [] ∧ r.acres.isSome))) := by
  have hhigh : confidence r = .High ↔ 80 ≤ confidence_score r := by
    unfold confidence
    split_ifs <;> simp_all
  have hmed : confidence r = .Medium ↔
      50 ≤ confidence_score r ∧ confidence_score r < 80 := by
    unfold confidence
    split_ifs with h1 h2 <;> simp_all <;> omega
  have hlow : confidence r = .Low ↔ confidence_score r < 50 := by
    unfold confidence
    split_ifs with h1 h2 <;> simp_all <;> omega
  have hmem : confidence r = .High ∨ confidence r = .Medium ∨
      confidence r = .Low := by
    unfold confidence
    split_ifs <;> simp
  have hfield : 80 ≤ confidence_score r ↔
      0 < r.price ∧ (15 < r.address.length ∨ (r.address ≠ [] ∧ r.acres.isSome)) := by
    unfold confidence_score
    split_ifs with h1 h2 h3 h4 <;> simp_all <;> omega
  exact ⟨hmem, rfl, hhigh, hmed, hlow, hhigh.trans hfield⟩

/-- C1 counterexample: a candidate with a positive price, no recovered
address and no acreage still produces one record, through the truncated
title fallback. -/
theorem discard_rule_counterexample :
    extract_address titleLong itemPriceOnly.snippet [] = none ∧
    extract_acres (titleLong ++ ' ' :: itemPriceOnly.snippet) = none ∧
    extract_price (titleLong ++ ' ' :: itemPriceOnly.snippet) = 45000 ∧
    (parse_individual_listings (toL "t0") []
      [itemPriceOnly]).toOption.map List.length = some 1 := by decide

/-- C1 amended: when the secondary-field extraction does not raise, the
detail extractor drops a candidate exactly when no truthy address was
recovered, that is the recovered address is absent or empty, and the
extracted price is 0; with a positive price and no truthy address a
record is built with the truncated title as the address. -/
theorem discard_rule (title snippet url location : Str) :
    extract_property_details title snippet url location = .ok none ↔
      (∃ bb, extract_beds_baths (title ++ ' ' :: snippet) = .ok bb) ∧
      truthyStr (extract_address title snippet location) = none ∧
      extract_price (title ++ ' ' :: snippet) = 0 := by
  unfold extract_property_details
  cases hbb : extract_beds_baths (title ++ ' ' :: snippet) with
  | error e =>
    simp only [hbb]
    constructor
    · intro h; exact Except.noConfusion h
    · rintro ⟨⟨bb, hb⟩, -, -⟩
      exact Except.noConfusion hb
  | ok bb =>
    obtain ⟨beds, baths⟩ := bb
    simp only [hbb]
    split_ifs with hcond
    · constructor
      · intro h
        exact Option.noConfusion (Except.ok.inj h)
      · rintro ⟨-, haddr, hprice⟩
        rcases hcond with hs | hp
        · rw [haddr] at hs; simp at hs
        · omega
    · constructor
      · intro h
        push_neg at hcond
        refine ⟨⟨(beds, baths), rfl⟩, ?_, by omega⟩
        exact Option.not_isSome_iff_eq_none.1 hcond.1
      · intro h; rfl

/-- C2 counterexample: a concrete run whose output holds a Low-grade
record before a High-grade one, so the output is not sorted by
confidence. -/
theorem order_guarantee_counterexample :
    sortedByConfidence
      (search_properties envTwo (toL "Bastrop, TX") (toL "land") none none)
      = false := by decide

lemma dedupGo_sublist : ∀ (rs : List PropertyRecord) (seen : List Str),
    (dedupGo seen rs).Sublist rs := by
  intro rs
  induction rs with
  | nil => intro seen; simp [dedupGo]
  | cons r t ih =>
    intro seen
    simp only [dedupGo]
    split_ifs with h1 h2
    · exact (ih seen).cons r
    · exact (ih _).cons₂ r
    · exact (ih seen).cons r

/-- C2 amended: no sorting happens; the output is an order-preserving
selection of first occurrences from the accumulated candidate list in
arrival order, capped at twenty, and is a pure function of the upstream
responses. -/
theorem order_is_arrival (env : Env) (l pt : Str) (mp : Option Nat)
    (ma : Option ℚ) :
    (search_properties env l pt mp ma).Sublist (aggregated_results env l pt mp) ∧
    (search_properties env l pt mp ma).length ≤ 20 ∧
    search_properties env l pt mp ma =
      (deduplicate_results (aggregated_results env l pt mp)).take 20 := by
  refine ⟨?_, ?_, rfl⟩
  · exact (List.take_sublist _ _).trans (dedupGo_sublist _ [])
  · simp only [search_properties, List.length_take]
    exact min_le_left _ _

lemma scrape_all_none (urls : List Str) (ss : List (Option PageData))
    (h : ∀ o ∈ ss, o = none) :
    ((urls.zip ss).map (fun uo => scrapeResult uo.1 uo.2)).flatten = [] := by
  induction urls generalizing ss with
  | nil => simp
  | cons u ut ih =>
    cases ss with
    | nil => simp
    | cons o ot =>
      have ho : o = none := h o (by simp)
      subst ho
      simp only [List.zip_cons_cons, List.map_cons, List.flatten_cons]
      rw [ih ot (fun o ho => h o (by simp [ho]))]
      simp [scrapeResult]

/-- C4: with credentials present and every aggregate-page fetch failing,
the call still returns the deduplicated capped search-tier records, and
whenever the search tier is below the five-record threshold the scrape
tier contribution is included in the accumulation. -/
theorem failure_isolation (env : Env) (l pt : Str) (mp : Option Nat)
    (ma : Option ℚ) (hk : env.hasKeys = true)
    (hs : ∀ o ∈ env.scrapes, o = none) :
    search_properties env l pt mp ma =
      (deduplicate_results (search_individual_listings env l pt mp)).take 20 ∧
    ((search_individual_listings env l pt mp).length < 5 →
      search_properties env l pt mp ma =
        (deduplicate_results (search_individual_listings env l pt mp ++
          fetch_from_aggregate_pages env l pt mp)).take 20) := by
  have hf : fetch_from_aggregate_pages env l pt mp = [] := by
    unfold fetch_from_aggregate_pages
    exact scrape_all_none _ _ hs
  have hagg : aggregated_results env l pt mp =
      search_individual_listings env l pt mp := by
    simp [aggregated_results, hk, hf]
  constructor
  · simp only [search_properties, hagg]
  · intro h5
    simp only [search_properties, hagg, hf, List.append_nil]

/-- C4 witness: a concrete environment with one search-tier record and all
scrapes failed. -/
theorem failure_isolation_witness :
    search_properties envOne (toL "loc") (toL "land") none none =
      (deduplicate_results
        (search_individual_listings envOne (toL "loc") (toL "land") none)).take 20 ∧
    search_properties envOne (toL "loc") (toL "land") none none =
      (deduplicate_results
        (search_individual_listings envOne (toL "loc") (toL "land") none ++
          fetch_from_aggregate_pages envOne (toL "loc") (toL "land") none)).take 20 := by
  have h := failure_isolation envOne (toL "loc") (toL "land") none none rfl
    (by decide)
  exact ⟨h.1, h.2 (by decide)⟩

lemma mem_dedupGo_norm : ∀ (rs : List PropertyRecord) (seen : List Str)
    (r : PropertyRecord), r ∈ dedupGo seen rs → normAddr r ≠ [] := by
  intro rs
  induction rs with
  | nil => intro seen r h; simp [dedupGo] at h
  | cons x t ih =>
    intro seen r h
    simp only [dedupGo] at h
    split_ifs at h with h1 h2
    · exact ih seen r h
    · rcases List.mem_cons.1 h with rfl | hm
      · exact h1
      · exact ih _ r hm
    · exact ih seen r h

/-- C6 counterexample: a record with an entirely absent address is dropped
by the deduplicator instead of being kept under a domain-plus-price key. -/
theorem addressless_fallback_counterexample :
    recNoAddr1.address = [] ∧ recNoAddr1.source = [] ∧
    deduplicate_results [recNoAddr1] = [] := by decide

/-- C6 amended: there is no fallback key; every record surviving
deduplication has a nonempty normalized address, so addressless records
are dropped outright. -/
theorem addressless_dropped (rs : List PropertyRecord) (r : PropertyRecord)
    (h : r ∈ deduplicate_results rs) : normAddr r ≠ [] :=
  mem_dedupGo_norm rs [] r h

/-- C6 amended witness: a concrete record surviving deduplication. -/
theorem addressless_dropped_witness : normAddr recOak1 ≠ [] :=
  addressless_dropped [recOak1] recOak1 (by decide)

/-- C8 counterexample: an item carrying no property-domain keyword at all
still yields a record, so no keyword gate exists. -/
theorem keyword_gate_counterexample :
    containsAnyKeyword (itemNoKeyword.title ++ ' ' :: itemNoKeyword.snippet)
      = false ∧
    (parse_individual_listings (toL "t0") []
      [itemNoKeyword]).toOption.map List.length = some 1 := by decide

/-- C8 amended: the outright rejection gate on a search item is the
address-pattern test; an item whose title and snippet lack a street
pattern, a LOT number and a unit number contributes no record. -/
theorem address_pattern_gate (now location : Str) (it : Item)
    (h : contains_address_pattern (it.title ++ ' ' :: it.snippet) = false) :
    itemRecords now location it = .ok [] := by
  unfold itemRecords
  simp [h]

/-- C8 amended witness: a concrete gate-failing item. -/
theorem address_pattern_gate_witness :
    itemRecords (toL "t0") [] { title := toL "hello world" } = .ok [] :=
  address_pattern_gate (toL "t0") [] { title := toL "hello world" } (by decide)

/-- C9 counterexample: on the Scenario A text the street regex never
matches, so the address claimed by the scenario is not extracted; as a
snippet the text yields no address, and as a title the whole text is
returned. -/
theorem scenario_a_counterexample :
    scanFirst (spMatchAt sufA) scenA = none ∧
    extract_address [] scenA [] = none ∧
    extract_address scenA scenA [] = some scenA ∧
    scenA ≠ toL "1234 County Road 345" := by decide

/-- C9 amended: the extractors recover price 45000 and acres 2.5 from the
Scenario A text, but no street address; with the text as the title the
record carries the whole title as its address and grades High under the
spec scorer. -/
theorem scenario_a_actual :
    extract_price scenA = 45000 ∧
    extract_acres scenA = some (mkRat 5 2) ∧
    extract_property_details scenA scenA (toL "u") (toL "loc") =
      .ok (some recScenA) ∧
    recScenA.address = scenA ∧
    confidence recScenA = .High := by decide

lemma digitCharOf_ne_us (d : Nat) : digitCharOf d ≠ '_' := by
  unfold digitCharOf
  split <;> decide

lemma natStrAux_no_us : ∀ (fuel n : Nat), n < fuel → '_' ∉ natStrAux fuel n := by
  intro fuel
  induction fuel with
  | zero => intro n h; omega
  | succ f ih =>
    intro n h
    unfold natStrAux
    split_ifs with h10
    · intro hm
      exact digitCharOf_ne_us n (List.mem_singleton.1 hm).symm
    · intro hm
      rcases List.mem_append.1 hm with h1 | h2
      · exact ih (n / 10) (by omega) h1
      · exact digitCharOf_ne_us (n % 10) (List.mem_singleton.1 h2).symm

lemma natOfDigits_append_digit (l : Str) (c : Char) :
    natOfDigits (l ++ [c]) = 10 * natOfDigits l + (c.toNat - 48) := by
  unfold natOfDigits
  rw [List.foldl_append]
  rfl

lemma digitCharOf_val (d : Nat) (h : d < 10) : (digitCharOf d).toNat - 48 = d := by
  interval_cases d <;> decide

lemma natStrAux_val : ∀ (fuel n : Nat), n < fuel →
    natOfDigits (natStrAux fuel n) = n := by
  intro fuel
  induction fuel with
  | zero => intro n h; omega
  | succ f ih =>
    intro n h
    unfold natStrAux
    split_ifs with h10
    · have hd := digitCharOf_val n h10
      simp [natOfDigits] at hd ⊢
      omega
    · rw [natOfDigits_append_digit, ih (n / 10) (by omega),
        digitCharOf_val (n % 10) (Nat.mod_lt _ (by omega))]
      omega

lemma natStr_no_us (n : Nat) : '_' ∉ natStr n :=
  natStrAux_no_us (n + 1) n (by omega)

lemma natStr_val (n : Nat) : natOfDigits (natStr n) = n :=
  natStrAux_val (n + 1) n (by omega)

lemma natStr_inj {a b : Nat} (h : natStr a = natStr b) : a = b := by
  have hv := congrArg natOfDigits h
  rwa [natStr_val, natStr_val] at hv

lemma us_append_inj : ∀ (l1 l2 d1 d2 : List Char), '_' ∉ d1 → '_' ∉ d2 →
    l1 ++ '_' :: d1 = l2 ++ '_' :: d2 → l1 = l2 ∧ d1 = d2 := by
  intro l1
  induction l1 with
  | nil =>
    intro l2 d1 d2 h1 h2 he
    cases l2 with
    | nil =>
      simp only [List.nil_append] at he
      exact ⟨rfl, (List.cons.inj he).2⟩
    | cons c t =>
      simp only [List.nil_append, List.cons_append] at he
      obtain ⟨hc, hd⟩ := List.cons.inj he
      exact absurd (hd ▸ List.mem_append_right t (List.mem_cons_self '_' d2)) h1
  | cons c t ih =>
    intro l2 d1 d2 h1 h2 he
    cases l2 with
    | nil =>
      simp only [List.nil_append, List.cons_append] at he
      obtain ⟨hc, hd⟩ := List.cons.inj he
      exact absurd (hd ▸ List.mem_append_right t (List.mem_cons_self '_' d1)) h2
    | cons c2 t2 =>
      simp only [List.cons_append] at he
      obtain ⟨hc, hd⟩ := List.cons.inj he
      obtain ⟨ht, hdd⟩ := ih t2 d1 d2 h1 h2 hd
      exact ⟨by rw [hc, ht], hdd⟩

lemma keyMatch_iff {a : Str} {p : Nat} {r : PropertyRecord} :
    keyMatch a p r = true ↔ normAddr r = a ∧ r.price = p := by
  simp [keyMatch]

lemma dedupGo_key_dead (a : Str) (p : Nat) :
    ∀ (rs : List PropertyRecord) (seen : List Str),
      (a ++ '_' :: natStr p) ∈ seen →
      (dedupGo seen rs).countP (keyMatch a p) = 0 := by
  intro rs
  induction rs with
  | nil => intro seen hm; simp [dedupGo]
  | cons r t ih =>
    intro seen hm
    simp only [dedupGo]
    split_ifs with h1 h2
    · exact ih seen hm
    · rw [List.countP_cons_of_neg]
      · exact ih _ (List.mem_cons_of_mem _ hm)
      · intro hk
        obtain ⟨hna, hpr⟩ := keyMatch_iff.1 hk
        apply h2
        unfold identOf
        rw [hna, hpr]
        exact hm
    · exact ih seen hm

lemma dedupGo_key (a : Str) (p : Nat) (hne : a ≠ []) :
    ∀ (rs : List PropertyRecord) (seen : List Str),
      (a ++ '_' :: natStr p) ∉ seen →
      rs.any (keyMatch a p) = true →
      (dedupGo seen rs).countP (keyMatch a p) = 1 ∧
      (dedupGo seen rs).find? (keyMatch a p) = rs.find? (keyMatch a p) := by
  intro rs
  induction rs with
  | nil => intro seen hns hex; simp at hex
  | cons r t ih =>
    intro seen hns hex
    by_cases hk : keyMatch a p r = true
    · obtain ⟨hna, hpr⟩ := keyMatch_iff.1 hk
      have hident : identOf r = a ++ '_' :: natStr p := by
        unfold identOf
        rw [hna, hpr]
      have hr1 : normAddr r ≠ [] := by rw [hna]; exact hne
      simp only [dedupGo]
      rw [if_pos hr1, if_neg (by rw [hident]; exact hns)]
      constructor
      · rw [List.countP_cons_of_pos _ _ hk]
        have hz := dedupGo_key_dead a p t (identOf r :: seen)
          (by rw [hident]; exact List.mem_cons_self _ _)
        omega
      · rw [List.find?_cons_of_pos _ hk, List.find?_cons_of_pos _ hk]
    · have hex2 : t.any (keyMatch a p) = true := by
        simp only [List.any_cons, hk, Bool.false_or] at hex
        exact hex
      have hident_ne : identOf r ≠ a ++ '_' :: natStr p := by
        intro he
        unfold identOf at he
        obtain ⟨ha1, ha2⟩ :=
          us_append_inj _ _ _ _ (natStr_no_us _) (natStr_no_us _) he
        exact hk (keyMatch_iff.2 ⟨ha1, natStr_inj ha2⟩)
      simp only [dedupGo]
      split_ifs with h1 h2
      · refine ⟨(ih seen hns hex2).1, ?_⟩
        rw [List.find?_cons_of_neg _ hk]
        exact (ih seen hns hex2).2
      · have hns2 : (a ++ '_' :: natStr p) ∉ identOf r :: seen := by
          intro hm
          rcases List.mem_cons.1 hm with hh | hh
          · exact hident_ne hh.symm
          · exact hns hh
        constructor
        · rw [List.countP_cons_of_neg _ _ hk]
          exact (ih _ hns2 hex2).1
        · rw [List.find?_cons_of_neg _ hk, List.find?_cons_of_neg _ hk]
          exact (ih _ hns2 hex2).2
      · refine ⟨(ih seen hns hex2).1, ?_⟩
        rw [List.find?_cons_of_neg _ hk]
        exact (ih seen hns hex2).2

/-- C5 counterexample: two candidates sharing the same normalized address,
the empty one, and the same price yield zero records, not one. -/
theorem dedup_key_counterexample :
    normAddr recNoAddr1 = normAddr recNoAddr2 ∧
    recNoAddr1.price = recNoAddr2.price ∧
    deduplicate_results [recNoAddr1, recNoAddr2] = [] := by decide

/-- C5 amended: for candidates whose shared normalized address is
nonempty, the deduplicated output keeps exactly one record with that
address and price, namely the first occurrence of the input. -/
theorem dedup_key (rs : List PropertyRecord) (a : Str) (p : Nat)
    (hne : a ≠ []) (hex : rs.any (keyMatch a p) = true) :
    (deduplicate_results rs).countP (keyMatch a p) = 1 ∧
    (deduplicate_results rs).find? (keyMatch a p) = rs.find? (keyMatch a p) :=
  dedupGo_key a p hne rs [] (by simp) hex

/-- C5 amended witness: the Oak Street duplicates collapse to the first. -/
theorem dedup_key_witness :
    (deduplicate_results [recOak1, recOak2]).countP
      (keyMatch (toL "500 oak st") 120000) = 1 ∧
    (deduplicate_results [recOak1, recOak2]).find?
        (keyMatch (toL "500 oak st") 120000) =
      [recOak1, recOak2].find? (keyMatch (toL "500 oak st") 120000) :=
  dedup_key [recOak1, recOak2] (toL "500 oak st") 120000 (by decide) (by decide)

lemma valid_ne_nil {s : Str} (h : is_valid_address s = true) : s ≠ [] := by
  intro he
  rw [he] at h
  exact absurd h (by decide)

lemma itemRecords_valid {now location : Str} {it : Item}
    {l : List PropertyRecord} (h : itemRecords now location it = .ok l) :
    ∀ r ∈ l, is_valid_address r.address = true := by
  unfold itemRecords at h
  split_ifs at h with hg
  · split at h
    · exact Except.noConfusion h
    · injection h with h2
      subst h2
      simp
    · split_ifs at h with hv
      · injection h with h2
        subst h2
        intro r hr
        rw [List.mem_singleton.1 hr]
        exact hv.2
      · injection h with h2
        subst h2
        simp
  · injection h with h2
    subst h2
    simp

lemma parse_valid {now location : Str} : ∀ {items : List Item}
    {l : List PropertyRecord},
    parse_individual_listings now location items = .ok l →
    ∀ r ∈ l, is_valid_address r.address = true := by
  intro items
  induction items with
  | nil =>
    intro l h r hr
    injection h with h2
    subst h2
    simp at hr
  | cons it t ih =>
    intro l h r hr
    unfold parse_individual_listings at h
    cases h1 : itemRecords now location it with
    | error e =>
      rw [h1] at h
      exact Except.noConfusion h
    | ok l1 =>
      rw [h1] at h
      cases h2 : parse_individual_listings now location t with
      | error e =>
        rw [h2] at h
        exact Except.noConfusion h
      | ok l2 =>
        rw [h2] at h
        injection h with h3
        subst h3
        rcases List.mem_append.1 hr with hm | hm
        · exact itemRecords_valid h1 r hm
        · exact ih h2 r hm

lemma queryContribution_valid {now location : Str} {o : QueryOutcome} :
    ∀ r ∈ queryContribution now location o,
      is_valid_address r.address = true := by
  cases o with
  | fail => simp [queryContribution]
  | errorField => simp [queryContribution]
  | ok200 items =>
    cases hp : parse_individual_listings now location items with
    | ok l =>
      simp only [queryContribution, hp]
      exact parse_valid hp
    | error e => simp [queryContribution, hp]

lemma tier1_valid {env : Env} {location property_type : Str}
    {max_price : Option Nat} :
    ∀ r ∈ search_individual_listings env location property_type max_price,
      is_valid_address r.address = true := by
  unfold search_individual_listings
  intro r hr
  obtain ⟨s, hs, hrs⟩ := List.mem_flatten.1 hr
  obtain ⟨qo, hqo, rfl⟩ := List.mem_map.1 hs
  exact queryContribution_valid r hrs

lemma zillowRecord_valid {url : Str} {b : ZBlock} {r : PropertyRecord}
    (h : zillowRecord url b = .ok (some r)) :
    is_valid_address r.address = true := by
  unfold zillowRecord at h
  split at h
  · exact Except.noConfusion h
  · split at h
    · split_ifs at h with hv
      · injection h with h2
        injection h2 with h3
        rw [← h3]
        exact hv.2
      · injection h with h2
        exact Option.noConfusion h2
    · injection h with h2
      exact Option.noConfusion h2

lemma zillowParse_valid {url : Str} {bs : List ZBlock} :
    ∀ r ∈ zillowParse url bs, is_valid_address r.address = true := by
  unfold zillowParse
  intro r hr
  obtain ⟨s, hs, hrs⟩ := List.mem_flatten.1 hr
  obtain ⟨b, hb, rfl⟩ := List.mem_map.1 hs
  revert hrs
  split
  · rename_i r0 heq
    intro hrs
    rw [List.mem_singleton.1 hrs]
    exact zillowRecord_valid heq
  · simp

lemma realtorRecord_valid {url : Str} {b : RBlock} {r : PropertyRecord}
    (h : realtorRecord url b = some r) :
    is_valid_address r.address = true := by
  unfold realtorRecord at h
  split at h
  · split_ifs at h with hv
    · rw [← Option.some.inj h]
      exact hv.2
  · exact Option.noConfusion h

lemma landwatchRecord_valid {url : Str} {b : LBlock} {r : PropertyRecord}
    (h : landwatchRecord url b = some r) :
    is_valid_address r.address = true := by
  unfold landwatchRecord at h
  split at h
  · split_ifs at h with hv
    · rw [← Option.some.inj h]
      exact hv.2
  · exact Option.noConfusion h

lemma genericParse_valid {url text : Str} :
    ∀ r ∈ genericParse url text, is_valid_address r.address = true := by
  unfold genericParse
  intro r hr
  obtain ⟨a, ha, rfl⟩ := List.mem_map.1 hr
  exact (List.mem_filter.1 ha).2

lemma scrapeResult_valid {url : Str} {o : Option PageData} :
    ∀ r ∈ scrapeResult url o, is_valid_address r.address = true := by
  cases o with
  | none => simp [scrapeResult]
  | some pd =>
    cases pd with
    | zillowPage bs => exact zillowParse_valid
    | realtorPage bs =>
      intro r hr
      exact realtorRecord_valid (List.mem_filterMap.1 hr).choose_spec.2
    | landwatchPage bs =>
      intro r hr
      exact landwatchRecord_valid (List.mem_filterMap.1 hr).choose_spec.2
    | genericPage t => exact genericParse_valid

lemma tier2_valid {env : Env} {location property_type : Str}
    {max_price : Option Nat} :
    ∀ r ∈ fetch_from_aggregate_pages env location property_type max_price,
      is_valid_address r.address = true := by
  unfold fetch_from_aggregate_pages
  intro r hr
  obtain ⟨s, hs, hrs⟩ := List.mem_flatten.1 hr
  obtain ⟨uo, huo, rfl⟩ := List.mem_map.1 hs
  exact scrapeResult_valid r hrs

lemma aggregated_valid {env : Env} {location property_type : Str}
    {max_price : Option Nat} :
    ∀ r ∈ aggregated_results env location property_type max_price,
      is_valid_address r.address = true := by
  unfold aggregated_results
  intro r hr
  split_ifs at hr with hk
  · rcases List.mem_append.1 hr with hm | hm
    · exact tier1_valid r hm
    · revert hm
      split
      · exact fun hm => tier2_valid r hm
      · simp
  · simp at hr

/-- C10: every record returned by search_properties carries an address
that passes the validity gate: at least ten characters, at least one
digit, and no category-page phrasing at the start; in particular the
address is nonempty. -/
theorem output_address_invariant (env : Env) (location property_type : Str)
    (max_price : Option Nat) (min_acres : Option ℚ) (r : PropertyRecord)
    (h : r ∈ search_properties env location property_type max_price min_acres) :
    is_valid_address r.address = true ∧ r.address ≠ [] := by
  have hmem : r ∈ aggregated_results env location property_type max_price :=
    (dedupGo_sublist _ []).subset (List.mem_of_mem_take h)
  have hv := aggregated_valid r hmem
  exact ⟨hv, valid_ne_nil hv⟩

/-- C10 witness: the invariant instantiated on a concrete output record. -/
theorem output_address_invariant_witness :
    is_valid_address recLow.address = true ∧ recLow.address ≠ [] :=
  output_address_invariant envOne (toL "Bastrop, TX") (toL "land") none none
    recLow (by decide)

end WebSearch
